import Mathlib

set_option maxRecDepth 10000

/-!
Shallow embedding of the `websocket` repository's connection engine
(`conn.go`, `accept.go`): the byte-stream collaborator, the frame codec,
the connection state machine, the ping protocol, and the handshake
accept-key computation (SHA-1 + base64).

Bytes are modelled as `Nat`; wherever Go truncates (`byte(x)`,
`uint16(x)`, `uint64(x)`) the model applies the corresponding `% 2^w`.
Go slices of bytes are `List Nat`.  Mutex acquisition that can never
succeed (re-locking a `sync.Mutex` already held by the same call chain)
is modelled as a `blocked` outcome, since Go mutexes are not reentrant
and the unlock could only come from code that runs after the blocked
call returns.
-/

namespace Websocket

/-- Error values surfaced by the connection and handshake
(`errors.go`; `conn.go` returns the sentinel values
`ErrConnectionClosed`, `ErrConnectionRead`, `ErrConnectionWrite`,
`ErrMalformedFrame`). -/
inductive WsErr where
  | ConnectionClosed
  | ConnectionRead
  | ConnectionWrite
  | MalformedFrame
  deriving DecidableEq, Repr

/-- Modelled from the spec: the Go `MessageType` enumeration lives in a
repository file that is not under `src/`.  The spec (§3) gives the
closed enumeration Text, Binary, Close, Ping, Pong, and says a decoded
opcode `0x0` frame yields a Message "with no explicit type set"
(§4.2 step 4); that unset zero value is modelled by `unset`. -/
inductive MessageType where
  | unset
  | text
  | binary
  | close
  | ping
  | pong
  deriving DecidableEq, Repr

/-- `Message` (spec §3): Go struct with fields `Type` and `Data`.
`Type` is a Lean keyword, so the fields are lower-cased here. -/
structure Message where
  type : MessageType
  data : List Nat
  deriving DecidableEq, Repr

/-- The underlying `io.ReadWriteCloser` collaborator, modelled as an
in-memory buffered peer (matching the repository's `MockNetConn`
tests): `input` holds the bytes the peer has sent and not yet been
read, `output` the bytes written so far.  `readAttempts` and
`writeAttempts` instrument the collaborator boundary: they count calls
to `Read`/`Write` on the stream, so theorems can state that an
operation did or did not touch the stream. -/
structure ByteStream where
  input : List Nat
  output : List Nat
  closed : Bool
  readAttempts : Nat
  writeAttempts : Nat
  deriving DecidableEq, Repr

/-- Result of one `underlying.Read(buf)` call with `len(buf) = k`:
`buf` is the full k-byte buffer (Go allocates it zeroed and a short
read leaves the tail zero), `count` the `n` the call returned,
`failed` whether the call returned a non-nil error. -/
structure StreamReadResult where
  buf : List Nat
  count : Nat
  stream : ByteStream
  failed : Bool
  deriving DecidableEq, Repr

/-- One `underlying.Read(buf)` call on the buffered peer: error on a
closed stream or on an empty buffer (EOF) when at least one byte was
requested; otherwise up to `k` bytes are delivered. -/
def streamRead (s : ByteStream) (k : Nat) : StreamReadResult :=
  let s1 := { s with readAttempts := s.readAttempts + 1 }
  if s.closed then ⟨List.replicate k 0, 0, s1, true⟩
  else if s.input = [] ∧ 0 < k then ⟨List.replicate k 0, 0, s1, true⟩
  else ⟨s.input.take k ++ List.replicate (k - s.input.length) 0,
        min k s.input.length,
        { s1 with input := s.input.drop k }, false⟩

/-- One `underlying.Write(p)` call: error on a closed stream, else the
bytes are appended to `output`. -/
def streamWrite (s : ByteStream) (p : List Nat) : ByteStream × Bool :=
  let s1 := { s with writeAttempts := s.writeAttempts + 1 }
  if s.closed then (s1, true)
  else ({ s1 with output := s1.output ++ p }, false)

/-- `Conn` (conn.go): the underlying stream, the `closed` flag, and
whether `pingCtx`/`pingCancel` are currently non-nil (`pingCtxSet`).
The mutexes `rmx`/`wmx`/`pingMx` are not state here; re-entrant
acquisition is modelled at the call sites that can block. -/
structure Conn where
  stream : ByteStream
  closed : Bool
  pingCtxSet : Bool
  deriving DecidableEq, Repr

/-- `Conn.Close` (conn.go lines 36-43): locks `rmx` then `wmx`, marks
the connection closed and closes the underlying stream.  `rmxHeld` /
`wmxHeld` say which of the two mutexes the calling context already
holds; Go `sync.Mutex` is not reentrant, so in that case the `Lock`
call blocks forever (`none`).  The underlying close of the buffered
peer returns no error. -/
def Conn.Close (c : Conn) (rmxHeld wmxHeld : Bool) :
    Option (Option WsErr × Conn) :=
  if rmxHeld || wmxHeld then none
  else some (none,
    { c with closed := true, stream := { c.stream with closed := true } })

/-- First frame byte written by `Conn.Write` (conn.go lines 171-184):
`fin | opcode` per message type.  The Go `switch` has no default, so a
message whose type matches no case appends nothing. -/
def opcodeBytes (t : MessageType) : List Nat :=
  match t with
  | .unset => []
  | .text => [0x80 ||| 0x1]
  | .binary => [0x80 ||| 0x2]
  | .close => [0x80 ||| 0x8]
  | .ping => [0x80 ||| 0x9]
  | .pong => [0x80 ||| 0xA]

/-- `binary.BigEndian.PutUint16` of `uint16(v)`. -/
def be16 (v : Nat) : List Nat := [v / 256 % 256, v % 256]

/-- `binary.BigEndian.PutUint64` of `uint64(v)`. -/
def be64 (v : Nat) : List Nat :=
  [v / 2 ^ 56 % 256, v / 2 ^ 48 % 256, v / 2 ^ 40 % 256, v / 2 ^ 32 % 256,
   v / 2 ^ 24 % 256, v / 2 ^ 16 % 256, v / 2 ^ 8 % 256, v % 256]

/-- Length field written by `Conn.Write` (conn.go lines 186-198):
direct 7-bit length below 126, `126` + 2 big-endian bytes below 65536,
else `127` + 8 big-endian bytes. -/
def encodeLenBytes (n : Nat) : List Nat :=
  if n < 126 then [n % 256]
  else if n < 65536 then 126 :: be16 (n % 65536)
  else 127 :: be64 (n % 2 ^ 64)

/-- The full frame assembled by `Conn.Write` (conn.go lines 164-209):
opcode byte, length field, then the raw payload.  No mask bit and no
mask key are ever produced. -/
def encodeFrame (m : Message) : List Nat :=
  opcodeBytes m.type ++ encodeLenBytes m.data.length ++ m.data

/-- `Conn.Write` (conn.go lines 164-214): assembles the frame and
writes it to the underlying stream in one call; a failed stream write
becomes `ErrConnectionWrite`.  Note the source checks neither `closed`
nor anything else before writing. -/
def Conn.Write (c : Conn) (m : Message) : Option WsErr × Conn :=
  let r := streamWrite c.stream (encodeFrame m)
  ((if r.2 then some WsErr.ConnectionWrite else none), { c with stream := r.1 })

/-- `binary.BigEndian.Uint16` / `Uint64` on an exact-length buffer. -/
def beUint (l : List Nat) : Nat := l.foldl (fun acc b => acc * 256 + b) 0

/-- The unmask loop of `Conn.Read` (conn.go lines 151-155):
`payload[i] ^= maskKey[i % 4]`, starting at index `i`. -/
def unmaskFrom (key : List Nat) (i : Nat) : List Nat → List Nat
  | [] => []
  | b :: rest => (b ^^^ key.getD (i % 4) 0) :: unmaskFrom key (i + 1) rest

/-- In-place unmasking of a whole payload: `payload[i] ^= maskKey[i % 4]`
for all `i`. -/
def unmask (payload key : List Nat) : List Nat := unmaskFrom key 0 payload

/-- Outcome of one `Conn.Read` call.  `blocked` means the call never
returns (it is parked forever on a mutex `Lock`). -/
inductive ReadOutcome where
  | blocked
  | ok (m : Message) (c : Conn)
  | fail (e : WsErr) (c : Conn)
  deriving DecidableEq, Repr

/-- Payload phase of `Conn.Read` (conn.go lines 142-159): read
`payloadLength` bytes (a failed stream read is `ErrConnectionRead`),
unmask when a mask key was read, and return the message. -/
def readPayloadPhase (t : MessageType) (maskKey : Option (List Nat))
    (n : Nat) (c : Conn) : ReadOutcome :=
  let r := streamRead c.stream n
  let c1 := { c with stream := r.stream }
  if r.failed then .fail .ConnectionRead c1
  else
    let payload :=
      match maskKey with
      | some key => unmask r.buf key
      | none => r.buf
    .ok ⟨t, payload⟩ c1

/-- Mask phase of `Conn.Read` (conn.go lines 133-140): when bit 7 of
the second header byte is set, read the 4-byte mask key. -/
def readMaskPhase (t : MessageType) (b1 : Nat) (n : Nat) (c : Conn) :
    ReadOutcome :=
  if (b1 >>> 7) &&& 1 ≠ 0 then
    let r := streamRead c.stream 4
    let c1 := { c with stream := r.stream }
    if r.failed then .fail .ConnectionRead c1
    else readPayloadPhase t (some r.buf) n c1
  else readPayloadPhase t none n c

/-- Length phase of `Conn.Read` (conn.go lines 114-131): the 7-bit
indicator is used directly, unless it is 126 (read 2 more big-endian
bytes) or 127 (read 8 more). -/
def readLenPhase (t : MessageType) (b1 : Nat) (c : Conn) : ReadOutcome :=
  let pl0 := b1 &&& 0x7F
  if pl0 = 126 then
    let r := streamRead c.stream 2
    let c1 := { c with stream := r.stream }
    if r.failed then .fail .ConnectionRead c1
    else readMaskPhase t b1 (beUint r.buf) c1
  else if pl0 = 127 then
    let r := streamRead c.stream 8
    let c1 := { c with stream := r.stream }
    if r.failed then .fail .ConnectionRead c1
    else readMaskPhase t b1 (beUint r.buf) c1
  else readMaskPhase t b1 pl0 c

/-- Opcode dispatch of `Conn.Read` (conn.go lines 82-112).  The `0x8`
case calls `c.Close()` while `Read` already holds `rmx`; `Close`
re-locks `rmx`, so that call never returns and `Read` blocks forever.
The `0x9` case writes an empty Pong first (its error is only logged).
The `0xA` case cancels and clears the pending ping context. -/
def dispatchOpcode (op b1 : Nat) (c : Conn) : ReadOutcome :=
  if op = 0x0 then readLenPhase .unset b1 c
  else if op = 0x1 then readLenPhase .text b1 c
  else if op = 0x2 then readLenPhase .binary b1 c
  else if op = 0x8 then
    match c.Close true false with
    | none => .blocked
    | some (_, c1) => readLenPhase .close b1 c1
  else if op = 0x9 then
    let w := c.Write ⟨.pong, []⟩
    readLenPhase .ping b1 w.2
  else if op = 0xA then
    readLenPhase .pong b1 { c with pingCtxSet := false }
  else .fail .MalformedFrame c

/-- `Conn.Read` (conn.go lines 48-160): under `rmx`, fail fast when
closed, read the 2-byte header (stream error → `ErrConnectionRead`,
short read → `ErrMalformedFrame`), check `fin` and the RSV bits, then
dispatch on the opcode and run the length/mask/payload phases. -/
def Conn.Read (c : Conn) : ReadOutcome :=
  if c.closed then .fail .ConnectionClosed c
  else
    let r := streamRead c.stream 2
    let c1 := { c with stream := r.stream }
    if r.failed then .fail .ConnectionRead c1
    else if r.count ≠ 2 then .fail .MalformedFrame c1
    else
      let b0 := r.buf.getD 0 0
      let b1 := r.buf.getD 1 0
      if b0 &&& 0x80 = 0 then .fail .MalformedFrame c1
      else if b0 &&& 0x40 ≠ 0 ∨ b0 &&& 0x20 ≠ 0 ∨ b0 &&& 0x10 ≠ 0 then
        .fail .MalformedFrame c1
      else dispatchOpcode (b0 &&& 0xF) b1 c1

/-- A fresh open connection whose peer has queued `input`
(`From` over a fresh buffered stream, conn.go lines 29-31). -/
def openConn (input : List Nat) : Conn :=
  ⟨⟨input, [], false, 0, 0⟩, false, false⟩

/-- How the wait `<-c.pingCtx.Done()` in `Conn.Ping` eventually
resolves.  `pong` means a concurrent `Conn.Read` decoded a Pong frame
and ran `pingCancel()` (conn.go lines 101-108); `deadline` means the
deadline installed on the outstanding ping context elapsed;
`parentCanceled` means the caller-supplied parent context was
canceled. -/
inductive PingResolution where
  | pong
  | deadline
  | parentCanceled
  deriving DecidableEq, Repr

/-- What `ctx.Err()` can return. -/
inductive CtxErr where
  | noErr
  | canceled
  | deadlineExceeded
  deriving DecidableEq, Repr

/-- Outcome of one `Conn.Ping` call.  `panics` models a nil-pointer
dereference inside the call. -/
inductive PingOutcome where
  | panics
  | returns (pongReceived : Bool) (e : Option WsErr) (c : Conn)
  deriving DecidableEq, Repr

/-- The final `switch ctx.Err()` of `Conn.Ping` (conn.go lines
248-254): `Canceled` → `(true, nil)`, `DeadlineExceeded` →
`(false, nil)`, anything else falls through to `(false, nil)`. -/
def pingSwitch (ce : CtxErr) (c : Conn) : PingOutcome :=
  match ce with
  | .canceled => .returns true none c
  | .deadlineExceeded => .returns false none c
  | .noErr => .returns false none c

/-- `Conn.Ping` (conn.go lines 224-255).  `ctxIsNil` is whether the
caller passed a nil context, `res` how the eventual wait on
`pingCtx.Done()` resolves.

When no ping is outstanding (`pingCtxSet = false`): the local `ctx` is
rebound to a derived context (a fresh 5-second timeout context when
the argument was nil, else `WithCancel` of the caller's context), that
derived context is stored as `pingCtx`, and an empty Ping frame is
written; a write error is returned at once.  Otherwise the call waits;
at wake-up the derived context's `Err()` is `Canceled` when
`pingCancel()` ran (pong) or the parent was canceled, and
`DeadlineExceeded` when the deadline elapsed.

When a ping is already outstanding the rebinding `if` body is skipped:
no frame is written, the call waits on the existing `pingCtx`, and the
final switch consults the caller's own argument `ctx` — which is a nil
pointer dereference (`panics`) when the caller passed nil, and whose
`Err()` is untouched by the pong or by the outstanding ping's deadline
(`noErr`) and `Canceled` only if the caller's own context was
canceled. -/
def Conn.Ping (c : Conn) (ctxIsNil : Bool) (res : PingResolution) :
    PingOutcome :=
  if c.pingCtxSet = false then
    let c1 := { c with pingCtxSet := true }
    let w := Conn.Write c1 ⟨.ping, []⟩
    match w.1 with
    | some e => .returns false (some e) w.2
    | none =>
      let ce : CtxErr :=
        match res with
        | .pong => .canceled
        | .deadline => .deadlineExceeded
        | .parentCanceled => .canceled
      pingSwitch ce w.2
  else
    if ctxIsNil then .panics
    else
      let ce : CtxErr :=
        match res with
        | .pong => .noErr
        | .deadline => .noErr
        | .parentCanceled => .canceled
      pingSwitch ce c

/-- The payload bytes of the canonical `"Hello"` example. -/
def helloBytes : List Nat := [72, 101, 108, 108, 111]

/-- The wire frame of a Text `"Hello"` message. -/
def helloWire : List Nat := [0x81, 0x05, 72, 101, 108, 108, 111]

/-- The connection produced by calling Close on a fresh open
connection. -/
def closedDemoConn : Conn := ⟨⟨[], [], true, 0, 0⟩, true, false⟩

/-- The payload-length decoder of `Conn.Read` (conn.go lines 114-131)
as a pure function of the length field: the 7-bit indicator of the
first byte, or the big-endian value of the next 2 (indicator 126) or
8 (indicator 127) bytes. -/
def decodeLenBytes : List Nat → Nat
  | [] => 0
  | b1 :: rest =>
    let pl0 := b1 &&& 0x7F
    if pl0 = 126 then beUint (rest.take 2)
    else if pl0 = 127 then beUint (rest.take 8)
    else pl0

/-- The boolean result of a Ping call that returned. -/
def pingReturnedPong : PingOutcome → Option Bool
  | .returns b _ _ => some b
  | .panics => none

/-- A connection with a ping already outstanding and nothing queued. -/
def joinDemoConn : Conn := ⟨⟨[], [], false, 0, 0⟩, false, true⟩

/-- Conn state after a first Ping call wrote its Ping frame: the ping
context is recorded and the empty Ping frame 0x89 0x00 went out. -/
def pingWrittenConn (c : Conn) : Conn :=
  { c with
    pingCtxSet := true
    stream := { c.stream with
      output := c.stream.output ++ [0x89, 0]
      writeAttempts := c.stream.writeAttempts + 1 } }

/-- Conn state after a first Ping call whose frame write failed. -/
def pingFailConn (c : Conn) : Conn :=
  { c with
    pingCtxSet := true
    stream := { c.stream with
      writeAttempts := c.stream.writeAttempts + 1 } }

/-! SHA-1 and base64, the two collaborators `AcceptHTTP` uses from the
Go standard library (`crypto/sha1`, `encoding/base64`), embedded as
executable functions on byte lists.  32-bit words are `Nat` wrapped
with an explicit `% 2^32`. -/

/-- Truncation to a 32-bit word. -/
def w32 (n : Nat) : Nat := n % 4294967296

/-- 32-bit rotate left (for `x` below `2^32` and `k` at most 32). -/
def rotl32 (x k : Nat) : Nat := w32 ((x <<< k) ||| (x >>> (32 - k)))

/-- 32-bit bitwise complement (for `x` below `2^32`). -/
def not32 (x : Nat) : Nat := x ^^^ 0xFFFFFFFF

/-- The five SHA-1 working registers. -/
structure Sha1State where
  a : Nat
  b : Nat
  c : Nat
  d : Nat
  e : Nat
  deriving DecidableEq, Repr

/-- Big-endian 32-bit words from a byte list (4 bytes per word). -/
def toWords : List Nat → List Nat
  | b0 :: b1 :: b2 :: b3 :: rest =>
    (((b0 * 256 + b1) * 256 + b2) * 256 + b3) :: toWords rest
  | _ => []

/-- SHA-1 message-schedule extension: append
`rotl1 (w[i-3] xor w[i-8] xor w[i-14] xor w[i-16])` the given number
of times. -/
def extendWords (ws : List Nat) : Nat → List Nat
  | 0 => ws
  | k + 1 =>
    let i := ws.length
    extendWords
      (ws ++ [rotl32 ((ws.getD (i - 3) 0) ^^^ (ws.getD (i - 8) 0) ^^^
        (ws.getD (i - 14) 0) ^^^ (ws.getD (i - 16) 0)) 1]) k

/-- The SHA-1 round function selector. -/
def sha1F (i b c d : Nat) : Nat :=
  if i < 20 then (b &&& c) ||| (not32 b &&& d)
  else if i < 40 then b ^^^ c ^^^ d
  else if i < 60 then (b &&& c) ||| (b &&& d) ||| (c &&& d)
  else b ^^^ c ^^^ d

/-- The SHA-1 round constants. -/
def sha1K (i : Nat) : Nat :=
  if i < 20 then 0x5A827999
  else if i < 40 then 0x6ED9EBA1
  else if i < 60 then 0x8F1BBCDC
  else 0xCA62C1D6

/-- One SHA-1 round: `iw` is the round index paired with its schedule
word. -/
def sha1Round (st : Sha1State) (iw : Nat × Nat) : Sha1State :=
  let temp := w32 (rotl32 st.a 5 + sha1F iw.1 st.b st.c st.d + st.e +
    sha1K iw.1 + iw.2)
  ⟨temp, st.a, rotl32 st.b 30, st.c, st.d⟩

/-- Process one 64-byte chunk: 80 rounds, then add into the running
state. -/
def processChunk (h : Sha1State) (chunk : List Nat) : Sha1State :=
  let ws := extendWords (toWords chunk) 64
  let st := (List.zip (List.range 80) ws).foldl sha1Round h
  ⟨w32 (h.a + st.a), w32 (h.b + st.b), w32 (h.c + st.c), w32 (h.d + st.d),
    w32 (h.e + st.e)⟩

/-- Process a padded message 64 bytes at a time.  The first argument
is structural fuel; any fuel at least the number of chunks (for
instance the padded length itself) processes everything. -/
def processChunks : Nat → Sha1State → List Nat → Sha1State
  | 0, h, _ => h
  | _ + 1, h, [] => h
  | fuel + 1, h, l => processChunks fuel (processChunk h (l.take 64)) (l.drop 64)

/-- SHA-1 padding: a 0x80 byte, zeros to 56 mod 64, then the bit
length as 8 big-endian bytes. -/
def sha1pad (m : List Nat) : List Nat :=
  let zeros := (64 + 56 - (m.length + 1) % 64) % 64
  m ++ 0x80 :: (List.replicate zeros 0 ++ be64 (8 * m.length))

/-- A 32-bit word as 4 big-endian bytes. -/
def word2bytes (w : Nat) : List Nat :=
  [w >>> 24 &&& 255, w >>> 16 &&& 255, w >>> 8 &&& 255, w &&& 255]

/-- The 20-byte SHA-1 digest of a byte list (`sha1.Sum`). -/
def sha1 (m : List Nat) : List Nat :=
  let padded := sha1pad m
  let st := processChunks padded.length
    ⟨0x67452301, 0xEFCDAB89, 0x98BADCFE, 0x10325476, 0xC3D2E1F0⟩ padded
  word2bytes st.a ++ word2bytes st.b ++ word2bytes st.c ++ word2bytes st.d ++
    word2bytes st.e

/-- The standard base64 alphabet, as ASCII byte values. -/
def b64char (n : Nat) : Nat :=
  if n < 26 then 65 + n
  else if n < 52 then 97 + (n - 26)
  else if n < 62 then 48 + (n - 52)
  else if n = 62 then 43
  else 47

/-- Standard base64 encoding (`base64.StdEncoding`), 3 input bytes per
4 output characters, with `=` (61) padding. -/
def base64Chunks : List Nat → List Nat
  | b0 :: b1 :: b2 :: rest =>
    b64char (b0 >>> 2) :: b64char (((b0 &&& 3) <<< 4) ||| (b1 >>> 4)) ::
      b64char (((b1 &&& 15) <<< 2) ||| (b2 >>> 6)) :: b64char (b2 &&& 63) ::
      base64Chunks rest
  | [b0, b1] =>
    [b64char (b0 >>> 2), b64char (((b0 &&& 3) <<< 4) ||| (b1 >>> 4)),
     b64char ((b1 &&& 15) <<< 2), 61]
  | [b0] => [b64char (b0 >>> 2), b64char ((b0 &&& 3) <<< 4), 61, 61]
  | [] => []

/-- `sec_websocket_key_noncesize` (accept.go): a 16-byte nonce base64
encoded is 24 characters long. -/
def sec_websocket_key_noncesize : Nat := 24

/-- `websocket_uuid` (accept.go): the byte values of the fixed GUID
literal `258EAFA5-E914-47DA-95CA-C5AB0DC85B11`. -/
def websocket_uuid : List Nat :=
  [50, 53, 56, 69, 65, 70, 65, 53, 45, 69, 57, 49, 52, 45, 52, 55, 68, 65,
   45, 57, 53, 67, 65, 45, 67, 53, 65, 66, 48, 68, 67, 56, 53, 66, 49, 49]

/-- The accept-key computation of `AcceptHTTP` (accept.go lines
97-117) on the already-trimmed key: on the 24-byte fast path the key
and GUID are copied into a zeroed 60-byte array (Go `copy` fills at
most the 60-byte destination, leaving any shortfall zero), on the slow
path they are concatenated directly; either way the result is the
base64 encoding of the SHA-1 digest. -/
def acceptKeyFromTrimmed (key : List Nat) : List Nat :=
  let s := key ++ websocket_uuid
  let keyConcat :=
    if key.length = sec_websocket_key_noncesize then
      s.take 60 ++ List.replicate (60 - min 60 s.length) 0
    else s
  base64Chunks (sha1 keyConcat)

/-- ASCII fragment of Go `unicode.IsSpace`, the whitespace notion of
`strings.TrimSpace`: tab, newline, vertical tab, form feed, carriage
return, space.  (The Sec-WebSocket-Key header is base64 ASCII, so the
non-ASCII space code points never occur in it.) -/
def isSpaceByte (b : Nat) : Bool :=
  b = 9 || b = 10 || b = 11 || b = 12 || b = 13 || b = 32

/-- `strings.TrimSpace` on byte lists: drop whitespace from both
ends. -/
def trimSpace (l : List Nat) : List Nat :=
  ((l.dropWhile isSpaceByte).reverse.dropWhile isSpaceByte).reverse

/-- The `Sec-WebSocket-Accept` value `AcceptHTTP` computes from the
raw `Sec-WebSocket-Key` header value (accept.go lines 94-117): trim,
then the fast/slow-path concatenation, SHA-1 and base64. -/
def acceptHTTPKey (rawKey : List Nat) : List Nat :=
  acceptKeyFromTrimmed (trimSpace rawKey)

/-- The byte values of the spec's reference key
`dGhlIHNhbXBsZSBub25jZQ==`. -/
def demoKeyBytes : List Nat :=
  [100, 71, 104, 108, 73, 72, 78, 104, 98, 88, 66, 115, 90, 83, 66, 117,
   98, 50, 53, 106, 90, 81, 61, 61]

/-- The byte values of the expected accept key
`s3pPLMBiTxaQ9kYGzzhZRbK+xOo=`. -/
def expectedAcceptBytes : List Nat :=
  [115, 51, 112, 80, 76, 77, 66, 105, 84, 120, 97, 81, 57, 107, 89, 71,
   122, 122, 104, 90, 82, 98, 75, 43, 120, 79, 111, 61]

/-- Reading exactly the first `l.length` queued bytes from an open
stream delivers `l`, leaves the remainder queued, and bumps the read
counter. -/
theorem streamRead_append (l rest out : List Nat) (ra wa : Nat) :
    streamRead ⟨l ++ rest, out, false, ra, wa⟩ l.length =
      ⟨l, l.length, ⟨rest, out, false, ra + 1, wa⟩, false⟩ := by
  cases l with
  | nil => simp [streamRead]
  | cons a t =>
    simp only [streamRead]
    simp [List.take_left, List.drop_left]

/-- Claim C1: encoding a Text message with payload "Hello" via Write
produces exactly the wire bytes 0x81 0x05 'H' 'e' 'l' 'l' 'o' (and no
error), and decoding those bytes via Read on the peer side reproduces
type Text and data "Hello" exactly. -/
theorem claim1_hello_roundtrip :
    (Conn.Write (openConn []) ⟨.text, helloBytes⟩).1 = none ∧
    (Conn.Write (openConn []) ⟨.text, helloBytes⟩).2.stream.output = helloWire ∧
    Conn.Read (openConn helloWire) =
      .ok ⟨.text, helloBytes⟩ ⟨⟨[], [], false, 2, 0⟩, false, false⟩ := by
  decide

/-- Claim C5: for every inbound frame whose first header byte has
fin = 0, or any non-zero RSV bit, or an opcode outside
{0x0, 0x1, 0x2, 0x8, 0x9, 0xA}, Read returns the MalformedFrame error
(it neither crashes nor hangs: it returns, having consumed only the
2-byte header). -/
theorem claim5_malformed_header (b0 b1 : Nat) (rest : List Nat)
    (_hb : b0 < 256)
    (h : b0 &&& 0x80 = 0 ∨ b0 &&& 0x40 ≠ 0 ∨ b0 &&& 0x20 ≠ 0 ∨
      b0 &&& 0x10 ≠ 0 ∨
      ¬(b0 &&& 0xF = 0x0 ∨ b0 &&& 0xF = 0x1 ∨ b0 &&& 0xF = 0x2 ∨
        b0 &&& 0xF = 0x8 ∨ b0 &&& 0xF = 0x9 ∨ b0 &&& 0xF = 0xA)) :
    Conn.Read (openConn (b0 :: b1 :: rest)) =
      .fail .MalformedFrame ⟨⟨rest, [], false, 1, 0⟩, false, false⟩ := by
  have hsr : streamRead ⟨b0 :: b1 :: rest, [], false, 0, 0⟩ 2 =
      ⟨[b0, b1], 2, ⟨rest, [], false, 1, 0⟩, false⟩ :=
    streamRead_append [b0, b1] rest [] 0 0
  simp only [Conn.Read, openConn, hsr]
  rcases h with h | h | h | h | h
  · simp [h]
  · simp [h]
  · simp [h]
  · simp [h]
  · push_neg at h
    obtain ⟨h0, h1', h2', h8, h9, hA⟩ := h
    by_cases hfin : b0 &&& 0x80 = 0
    · simp [hfin]
    · by_cases hr1 : b0 &&& 0x40 ≠ 0
      · simp [hfin, hr1]
      · by_cases hr2 : b0 &&& 0x20 ≠ 0
        · simp [hfin, hr1, hr2]
        · by_cases hr3 : b0 &&& 0x10 ≠ 0
          · simp [hfin, hr1, hr2, hr3]
          · simp [hfin, hr1, hr2, hr3, dispatchOpcode, h0, h1', h2', h8,
              h9, hA]

/-- Claim C5 witness: the two bytes 0x83 0x00 (opcode 0x3, zero
payload length) yield MalformedFrame. -/
theorem claim5_witness :
    0x83 < 256 ∧
    Conn.Read (openConn [0x83, 0x00]) =
      .fail .MalformedFrame ⟨⟨[], [], false, 1, 0⟩, false, false⟩ :=
  ⟨by decide, claim5_malformed_header 0x83 0x00 [] (by decide) (by decide)⟩

/-- Claim C6 (code bug): an inbound Close frame (opcode 0x8) on an open
connection makes `Conn.Read` call the internal `Conn.Close` while
`Read` itself still holds the read mutex `rmx`; `Close` re-locks `rmx`
(conn.go line 37), a Go `sync.Mutex` is not reentrant, and the only
unlock is `Read`'s own deferred one, so the call blocks forever.  Read
never returns the Close Message the claim (and the spec) promise. -/
theorem claim6_close_frame_deadlocks :
    Conn.Read (openConn [0x88, 0x00]) = .blocked := by decide

/-- Claim C7: after Close has been called (the `closed` flag is set),
every subsequent Read returns the ConnectionClosed error immediately
and leaves the connection — in particular the stream and its
`readAttempts` counter — untouched. -/
theorem claim7_read_after_close (c : Conn) (h : c.closed = true) :
    Conn.Read c = .fail .ConnectionClosed c := by
  simp [Conn.Read, h]

/-- Claim C7 witness: a concrete closed connection. -/
theorem claim7_witness :
    (⟨⟨[], [], true, 0, 0⟩, true, false⟩ : Conn).closed = true ∧
    Conn.Read ⟨⟨[], [], true, 0, 0⟩, true, false⟩ =
      .fail .ConnectionClosed ⟨⟨[], [], true, 0, 0⟩, true, false⟩ :=
  ⟨rfl, claim7_read_after_close _ rfl⟩

/-- Claim C8 counterexample: the claim says a Write after Close fails
fast with ConnectionClosed without touching the stream.  In the code,
`Conn.Write` checks nothing: on the connection that Close just
produced, it attempts the stream write (the write-attempt counter
moves from 0 to 1) and returns ConnectionWrite — not
ConnectionClosed. -/
theorem claim8_counterexample :
    Conn.Close (openConn []) false false = some (none, closedDemoConn) ∧
    (Conn.Write closedDemoConn ⟨.text, helloBytes⟩).1 =
      some WsErr.ConnectionWrite ∧
    (Conn.Write closedDemoConn ⟨.text, helloBytes⟩).1 ≠
      some WsErr.ConnectionClosed ∧
    (Conn.Write closedDemoConn ⟨.text, helloBytes⟩).2.stream.writeAttempts
      = 1 := by
  decide

/-- Claim C8 (amended): after Close has been called, a subsequent
Write does not fail fast: it attempts the frame write on the (now
closed) underlying stream — touching it, as witnessed by the
write-attempt counter — and surfaces the failed write as the
ConnectionWrite error. -/
theorem claim8_write_after_close (c : Conn) (m : Message)
    (_hc : c.closed = true) (hs : c.stream.closed = true) :
    (Conn.Write c m).1 = some WsErr.ConnectionWrite ∧
    (Conn.Write c m).2.stream.writeAttempts =
      c.stream.writeAttempts + 1 := by
  simp [Conn.Write, streamWrite, hs]

/-- Claim C8 witness: the amended behaviour at the connection Close
just produced. -/
theorem claim8_witness :
    closedDemoConn.closed = true ∧
    closedDemoConn.stream.closed = true ∧
    ((Conn.Write closedDemoConn ⟨.text, helloBytes⟩).1 =
        some WsErr.ConnectionWrite ∧
      (Conn.Write closedDemoConn ⟨.text, helloBytes⟩).2.stream.writeAttempts
        = closedDemoConn.stream.writeAttempts + 1) :=
  ⟨rfl, rfl, claim8_write_after_close closedDemoConn ⟨.text, helloBytes⟩ rfl rfl⟩

/-- Bit facts about the second header byte of a masked frame: with the
mask bit ored onto a 7-bit length indicator, the decoder's `& 0x7F`
recovers the indicator and its `>> 7 & 1` sees the mask bit. -/
theorem maskedByte_facts : ∀ pl0 < 128,
    (0x80 ||| pl0) &&& 0x7F = pl0 ∧ ((0x80 ||| pl0) >>> 7) &&& 1 = 1 := by
  decide

/-- A masked payload phase on a stream holding exactly the payload
followed by `rest`: the payload bytes are read and unmasked. -/
theorem readPayloadPhase_masked (t : MessageType) (key masked rest out : List Nat)
    (n ra wa : Nat) (cl pcs : Bool) (hmask : masked.length = n) :
    readPayloadPhase t (some key) n ⟨⟨masked ++ rest, out, false, ra, wa⟩, cl, pcs⟩ =
      .ok ⟨t, unmask masked key⟩ ⟨⟨rest, out, false, ra + 1, wa⟩, cl, pcs⟩ := by
  subst hmask
  simp [readPayloadPhase, streamRead_append masked rest out ra wa]

/-- The mask phase with the mask bit set on a stream holding the
4-byte key, the masked payload, then `rest`. -/
theorem readMaskPhase_masked (t : MessageType) (b1 : Nat)
    (key masked rest out : List Nat) (n ra wa : Nat) (cl pcs : Bool)
    (hb1 : (b1 >>> 7) &&& 1 = 1) (hkey : key.length = 4)
    (hmask : masked.length = n) :
    readMaskPhase t b1 n ⟨⟨key ++ (masked ++ rest), out, false, ra, wa⟩, cl, pcs⟩ =
      .ok ⟨t, unmask masked key⟩ ⟨⟨rest, out, false, ra + 2, wa⟩, cl, pcs⟩ := by
  have hsr := streamRead_append key (masked ++ rest) out ra wa
  rw [hkey] at hsr
  simp [readMaskPhase, hb1, hsr,
    readPayloadPhase_masked t key masked rest out n (ra + 1) wa cl pcs hmask]

/-- The length phase of a masked frame, in all three length forms:
direct 7-bit indicator, 126 + 2 extension bytes, 127 + 8 extension
bytes.  The stream holds the extension bytes (if any), the key, the
masked payload, then `rest`. -/
theorem readLenPhase_masked (t : MessageType) (pl0 : Nat)
    (ext key masked rest out : List Nat) (n ra wa : Nat) (cl pcs : Bool)
    (hpl : pl0 ≤ 127)
    (hext : (pl0 < 126 ∧ ext = [] ∧ n = pl0) ∨
      (pl0 = 126 ∧ ext.length = 2 ∧ n = beUint ext) ∨
      (pl0 = 127 ∧ ext.length = 8 ∧ n = beUint ext))
    (hkey : key.length = 4) (hmask : masked.length = n) :
    ∃ ra2 : Nat,
      readLenPhase t (0x80 ||| pl0)
          ⟨⟨ext ++ (key ++ (masked ++ rest)), out, false, ra, wa⟩, cl, pcs⟩ =
        .ok ⟨t, unmask masked key⟩ ⟨⟨rest, out, false, ra2, wa⟩, cl, pcs⟩ := by
  obtain ⟨ha, hm⟩ := maskedByte_facts pl0 (by omega)
  rcases hext with ⟨hlt, hnil, hn⟩ | ⟨heq, hlen, hn⟩ | ⟨heq, hlen, hn⟩
  · refine ⟨ra + 2, ?_⟩
    subst hnil
    rw [hn] at hmask
    have hmp := readMaskPhase_masked t (0x80 ||| pl0) key masked rest out pl0
      ra wa cl pcs hm hkey hmask
    simp [readLenPhase, ha, hmp, show ¬ pl0 = 126 by omega,
      show ¬ pl0 = 127 by omega]
  · refine ⟨ra + 3, ?_⟩
    subst heq
    rw [hn] at hmask
    have hsr := streamRead_append ext (key ++ (masked ++ rest)) out ra wa
    rw [hlen] at hsr
    have hmp := readMaskPhase_masked t 254 key masked rest out
      (beUint ext) (ra + 1) wa cl pcs (by decide) hkey hmask
    simp +decide [readLenPhase, hsr, hmp]
  · refine ⟨ra + 3, ?_⟩
    subst heq
    rw [hn] at hmask
    have hsr := streamRead_append ext (key ++ (masked ++ rest)) out ra wa
    rw [hlen] at hsr
    have hmp := readMaskPhase_masked t 255 key masked rest out
      (beUint ext) (ra + 1) wa cl pcs (by decide) hkey hmask
    simp +decide [readLenPhase, hsr, hmp]

/-- Claim C2: for every decoded frame with the mask bit set — any
decodable opcode, any of the three length forms — Read consumes a
4-byte mask key after the length field and returns the payload
unmasked in place by payload[i] ^= maskKey[i % 4] for all i, leaving
exactly the bytes after the payload unread. -/
theorem claim2_masked_decode (op pl0 n : Nat)
    (ext key masked rest : List Nat)
    (hop : op = 0x0 ∨ op = 0x1 ∨ op = 0x2 ∨ op = 0x9 ∨ op = 0xA)
    (hpl : pl0 ≤ 127)
    (hext : (pl0 < 126 ∧ ext = [] ∧ n = pl0) ∨
      (pl0 = 126 ∧ ext.length = 2 ∧ n = beUint ext) ∨
      (pl0 = 127 ∧ ext.length = 8 ∧ n = beUint ext))
    (hkey : key.length = 4) (hmask : masked.length = n) :
    ∃ m c1,
      Conn.Read (openConn ((0x80 ||| op) :: (0x80 ||| pl0) ::
          (ext ++ (key ++ (masked ++ rest))))) = .ok m c1 ∧
      m.data = unmask masked key ∧
      c1.stream.input = rest := by
  set tail := ext ++ (key ++ (masked ++ rest)) with htail
  have hsr : streamRead ⟨(0x80 ||| op) :: (0x80 ||| pl0) :: tail, [], false, 0, 0⟩ 2 =
      ⟨[0x80 ||| op, 0x80 ||| pl0], 2, ⟨tail, [], false, 1, 0⟩, false⟩ :=
    streamRead_append [0x80 ||| op, 0x80 ||| pl0] tail [] 0 0
  rcases hop with hop | hop | hop | hop | hop <;> subst hop
  · simp only [Conn.Read, openConn, hsr]
    norm_num [dispatchOpcode]
    obtain ⟨ra2, hlen⟩ := readLenPhase_masked .unset pl0 ext key masked rest []
      n 1 0 false false hpl hext hkey hmask
    exact ⟨_, _, hlen, rfl, rfl⟩
  · simp only [Conn.Read, openConn, hsr]
    norm_num [dispatchOpcode]
    obtain ⟨ra2, hlen⟩ := readLenPhase_masked .text pl0 ext key masked rest []
      n 1 0 false false hpl hext hkey hmask
    exact ⟨_, _, hlen, rfl, rfl⟩
  · simp only [Conn.Read, openConn, hsr]
    norm_num [dispatchOpcode]
    obtain ⟨ra2, hlen⟩ := readLenPhase_masked .binary pl0 ext key masked rest []
      n 1 0 false false hpl hext hkey hmask
    exact ⟨_, _, hlen, rfl, rfl⟩
  · simp only [Conn.Read, openConn, hsr]
    norm_num [dispatchOpcode, Conn.Write, streamWrite, encodeFrame,
      opcodeBytes, encodeLenBytes]
    obtain ⟨ra2, hlen⟩ := readLenPhase_masked .ping pl0 ext key masked rest
      [0x8A, 0] n 1 1 false false hpl hext hkey hmask
    exact ⟨_, _, hlen, rfl, rfl⟩
  · simp only [Conn.Read, openConn, hsr]
    norm_num [dispatchOpcode]
    obtain ⟨ra2, hlen⟩ := readLenPhase_masked .pong pl0 ext key masked rest []
      n 1 0 false false hpl hext hkey hmask
    exact ⟨_, _, hlen, rfl, rfl⟩

/-- Claim C2 witness: header bytes 0x81 0x84, mask key 01 02 03 04,
masked payload 75 67 70 70 decode to data "test" (0x74 0x65 0x73
0x74). -/
theorem claim2_witness :
    (∃ m c1,
      Conn.Read (openConn ((0x80 ||| 0x1) :: (0x80 ||| 0x4) ::
          ([] ++ ([1, 2, 3, 4] ++ ([0x75, 0x67, 0x70, 0x70] ++ []))))) =
        .ok m c1 ∧
      m.data = unmask [0x75, 0x67, 0x70, 0x70] [1, 2, 3, 4] ∧
      c1.stream.input = []) ∧
    unmask [0x75, 0x67, 0x70, 0x70] [1, 2, 3, 4] = [0x74, 0x65, 0x73, 0x74] :=
  ⟨claim2_masked_decode 0x1 0x4 4 [] [1, 2, 3, 4] [0x75, 0x67, 0x70, 0x70] []
      (by decide) (by decide) (by decide) (by decide) (by decide),
    by decide⟩

/-- Small-byte bit facts used for the length field: values below 128
have no mask bit and survive the 7-bit mask unchanged. -/
theorem lowByte_facts : ∀ k < 128, k &&& 0x80 = 0 ∧ k &&& 0x7F = k := by
  decide

/-- Claim C4: for every message payload, Write encodes the length as a
single byte below 126, as 126 + 2 big-endian bytes below 65536, and as
127 + 8 big-endian bytes otherwise; the length-indicator byte (the
frame byte after the opcode byte) never has the mask bit set; and
decoding the encoded length field recovers the payload length.  The
claim's five sample lengths 0, 125, 126, 65535, 65536 take the direct,
direct, 126+16-bit, 126+16-bit and 127+64-bit forms. -/
theorem claim4_length_encoding (m : Message)
    (hlen : m.data.length < 2 ^ 64) :
    encodeFrame m =
      opcodeBytes m.type ++ encodeLenBytes m.data.length ++ m.data ∧
    (∃ b lrest, encodeLenBytes m.data.length = b :: lrest ∧
      b &&& 0x80 = 0) ∧
    decodeLenBytes (encodeLenBytes m.data.length) = m.data.length ∧
    (m.data.length < 126 →
      encodeLenBytes m.data.length = [m.data.length]) ∧
    (126 ≤ m.data.length → m.data.length < 65536 →
      encodeLenBytes m.data.length = 126 :: be16 m.data.length) ∧
    (65536 ≤ m.data.length →
      encodeLenBytes m.data.length = 127 :: be64 m.data.length) ∧
    encodeLenBytes 0 = [0] ∧ encodeLenBytes 125 = [125] ∧
    encodeLenBytes 126 = [126, 0, 126] ∧
    encodeLenBytes 65535 = [126, 255, 255] ∧
    encodeLenBytes 65536 = [127, 0, 0, 0, 0, 0, 1, 0, 0] ∧
    decodeLenBytes (encodeLenBytes 0) = 0 ∧
    decodeLenBytes (encodeLenBytes 125) = 125 ∧
    decodeLenBytes (encodeLenBytes 126) = 126 ∧
    decodeLenBytes (encodeLenBytes 65535) = 65535 ∧
    decodeLenBytes (encodeLenBytes 65536) = 65536 := by
  set n := m.data.length with hn
  have hform : encodeLenBytes n = [n % 256] ∧ n < 126 ∨
      encodeLenBytes n = 126 :: be16 (n % 65536) ∧ 126 ≤ n ∧ n < 65536 ∨
      encodeLenBytes n = 127 :: be64 (n % 2 ^ 64) ∧ 65536 ≤ n := by
    by_cases h1 : n < 126
    · exact Or.inl ⟨by simp [encodeLenBytes, h1], h1⟩
    · by_cases h2 : n < 65536
      · exact Or.inr (Or.inl ⟨by simp [encodeLenBytes, h1, h2], by omega, h2⟩)
      · exact Or.inr (Or.inr ⟨by simp [encodeLenBytes, h1, h2], by omega⟩)
  refine ⟨rfl, ?_, ?_, ?_, ?_, ?_, by decide, by decide, by decide, by decide,
    by decide, by decide, by decide, by decide, by decide, by decide⟩
  · rcases hform with ⟨he, hb⟩ | ⟨he, hb, hb2⟩ | ⟨he, hb⟩
    · exact ⟨n % 256, [], by rw [he], (lowByte_facts (n % 256) (by omega)).1⟩
    · exact ⟨126, _, by rw [he], by decide⟩
    · exact ⟨127, _, by rw [he], by decide⟩
  · rcases hform with ⟨he, hb⟩ | ⟨he, hb, hb2⟩ | ⟨he, hb⟩
    · rw [he]
      have hmod : n % 256 = n := Nat.mod_eq_of_lt (by omega)
      have hand := (lowByte_facts n (by omega)).2
      simp [decodeLenBytes, hmod, hand, show ¬ n = 126 by omega,
        show ¬ n = 127 by omega]
    · rw [he]
      have hmod : n % 65536 = n := Nat.mod_eq_of_lt hb2
      simp +decide [decodeLenBytes, hmod, be16, beUint]
      omega
    · rw [he]
      have hmod : n % 2 ^ 64 = n := Nat.mod_eq_of_lt hlen
      simp [decodeLenBytes, hmod, be64, beUint]
      omega
  · intro h
    have hmod : n % 256 = n := Nat.mod_eq_of_lt (by omega)
    simp [encodeLenBytes, h, hmod]
  · intro h1 h2
    have hmod : n % 65536 = n := Nat.mod_eq_of_lt h2
    simp [encodeLenBytes, hmod, show ¬ n < 126 by omega, h2]
  · intro h1
    have hmod : n % 18446744073709551616 = n := Nat.mod_eq_of_lt (by omega)
    simp [encodeLenBytes, hmod, show ¬ n < 126 by omega,
      show ¬ n < 65536 by omega]

/-- Claim C4 witness: the theorem applied to a concrete 126-byte text
message. -/
theorem claim4_witness :
    (Message.mk .text (List.replicate 126 97)).data.length < 2 ^ 64 ∧
    encodeFrame ⟨.text, List.replicate 126 97⟩ =
      opcodeBytes MessageType.text ++
        encodeLenBytes (List.replicate 126 97).length ++
        List.replicate 126 97 := by
  have h : (Message.mk .text (List.replicate 126 97)).data.length < 2 ^ 64 := by
    simp
  exact ⟨h, (claim4_length_encoding ⟨.text, List.replicate 126 97⟩ h).1⟩

/-- A Ping call only ever returns a non-nil error when the outbound
Ping frame write failed: the error is ConnectionWrite and the
underlying stream was closed. -/
theorem ping_error_only_write (c : Conn) (ctxIsNil : Bool)
    (res : PingResolution) (b : Bool) (e : WsErr) (cx : Conn)
    (hres : Conn.Ping c ctxIsNil res = .returns b (some e) cx) :
    e = WsErr.ConnectionWrite ∧ c.stream.closed = true := by
  by_cases hp : c.pingCtxSet = false
  · by_cases hs : c.stream.closed = true
    · simp [Conn.Ping, hp, Conn.Write, streamWrite, hs] at hres
      exact ⟨hres.2.1.symm, hs⟩
    · simp [Conn.Ping, hp, Conn.Write, streamWrite, hs] at hres
      rcases res <;> simp [pingSwitch] at hres
  · simp only [Conn.Ping, hp, if_false] at hres
    rcases ctxIsNil <;> rcases res <;> simp [pingSwitch] at hres

/-- Claim C9 counterexample: the claim promises (true, nil) whenever a
pong resolves the outstanding-ping marker before the deadline, for
every Ping call.  A Ping call that joins an already outstanding ping
(the doc-commented block-until-pong case) with a live caller context
wakes when the pong cancels the shared marker, but then switches on
its own context's Err(), which is nil — falling through to
(false, nil). -/
theorem claim9_counterexample :
    joinDemoConn.pingCtxSet = true ∧
    Conn.Ping joinDemoConn false .pong = .returns false none joinDemoConn ∧
    pingReturnedPong (Conn.Ping joinDemoConn false .pong) ≠ some true := by
  decide

/-- Claim C9 (amended): for every Ping call that finds no ping
outstanding (the call that writes the Ping frame): it returns
(true, nil) when a pong resolves the marker before the deadline,
(false, nil) when the deadline elapses, and a non-nil error exactly
when writing the outbound Ping frame failed; moreover every Ping call
whatsoever returns a non-nil error only if the frame write failed.  A
call that joins an already outstanding ping does not get the
(true, nil)-on-pong guarantee (see the counterexample). -/
theorem claim9_first_ping (c : Conn) (ctxIsNil : Bool)
    (h : c.pingCtxSet = false) :
    (c.stream.closed = false →
      Conn.Ping c ctxIsNil .pong = .returns true none (pingWrittenConn c) ∧
      Conn.Ping c ctxIsNil .deadline =
        .returns false none (pingWrittenConn c)) ∧
    (c.stream.closed = true →
      ∀ res, Conn.Ping c ctxIsNil res =
        .returns false (some WsErr.ConnectionWrite) (pingFailConn c)) ∧
    (∀ (c2 : Conn) (nil2 : Bool) (res2 : PingResolution) (b : Bool)
      (e : WsErr) (cx : Conn),
      Conn.Ping c2 nil2 res2 = .returns b (some e) cx →
      e = WsErr.ConnectionWrite ∧ c2.stream.closed = true) := by
  refine ⟨?_, ?_, fun c2 nil2 res2 b e cx hr =>
    ping_error_only_write c2 nil2 res2 b e cx hr⟩
  · intro hs
    constructor <;>
      simp [Conn.Ping, h, Conn.Write, streamWrite, hs, encodeFrame,
        opcodeBytes, encodeLenBytes, pingSwitch, pingWrittenConn]
  · intro hs res
    simp [Conn.Ping, h, Conn.Write, streamWrite, hs, pingFailConn]

/-- Claim C9 witness: the amended behaviour on a fresh open
connection. -/
theorem claim9_witness :
    (openConn []).pingCtxSet = false ∧
    ((openConn []).stream.closed = false →
      Conn.Ping (openConn []) true .pong =
        .returns true none (pingWrittenConn (openConn [])) ∧
      Conn.Ping (openConn []) true .deadline =
        .returns false none (pingWrittenConn (openConn []))) :=
  ⟨rfl, (claim9_first_ping (openConn []) true rfl).1⟩

/-- The base64 encoding of any SHA-1 digest is 28 characters: the
digest is 5 words of 4 bytes, and base64 maps 18 bytes to 24
characters plus the final 2 bytes to a padded 4-character group. -/
theorem base64_sha1_length (x : List Nat) :
    (base64Chunks (sha1 x)).length = 28 := by
  simp [sha1, word2bytes, base64Chunks]

/-- The fast path of the accept-key computation (key of length 24,
copied with the GUID into a zeroed 60-byte array) agrees with the
direct concatenation used by the slow path. -/
theorem acceptKeyFromTrimmed_eq (key : List Nat) :
    acceptKeyFromTrimmed key =
      base64Chunks (sha1 (key ++ websocket_uuid)) := by
  by_cases h : key.length = sec_websocket_key_noncesize
  · have hs : (key ++ websocket_uuid).length = 60 := by
      simp [websocket_uuid, h, sec_websocket_key_noncesize]
    have ht : (key ++ websocket_uuid).take 60 = key ++ websocket_uuid :=
      List.take_of_length_le (by omega)
    simp [acceptKeyFromTrimmed, h, hs, ht]
  · simp [acceptKeyFromTrimmed, h]

/-- Claim C3: for every accepted upgrade request, the handshake
computes the accept key by concatenating the whitespace-trimmed
Sec-WebSocket-Key with the GUID 258EAFA5-E914-47DA-95CA-C5AB0DC85B11
(the 24-byte fast path agrees with this direct concatenation), taking
the 20-byte SHA-1 digest, and base64-encoding it to a 28-character
ASCII string; in particular for key dGhlIHNhbXBsZSBub25jZQ== the
Sec-WebSocket-Accept value is s3pPLMBiTxaQ9kYGzzhZRbK+xOo=. -/
theorem claim3_accept_key (rawKey : List Nat) :
    acceptHTTPKey rawKey =
      base64Chunks (sha1 (trimSpace rawKey ++ websocket_uuid)) ∧
    (sha1 (trimSpace rawKey ++ websocket_uuid)).length = 20 ∧
    (acceptHTTPKey rawKey).length = 28 ∧
    acceptHTTPKey demoKeyBytes = expectedAcceptBytes := by
  refine ⟨acceptKeyFromTrimmed_eq _, ?_, ?_, ?_⟩
  · simp [sha1, word2bytes]
  · rw [acceptHTTPKey, acceptKeyFromTrimmed_eq]
    exact base64_sha1_length _
  · decide

/-- Claim C10 (code bug): `Ping(nil)` while a previous ping is still
outstanding (`pingCtx` non-nil, so the nil argument is never replaced
by the default 5-second context) skips the rebinding branch, waits on
the existing `pingCtx`, and then evaluates `ctx.Err()` on the nil
`ctx` — a nil-pointer dereference, so Ping panics instead of
returning normally, however the wait resolves. -/
theorem claim10_nil_ctx_panics (c : Conn) (res : PingResolution)
    (h : c.pingCtxSet = true) :
    Conn.Ping c true res = .panics := by
  simp [Conn.Ping, h]

/-- Claim C10 witness: a concrete connection with an outstanding ping,
a nil context argument, and a pong actually arriving — the call still
panics. -/
theorem claim10_witness :
    (⟨⟨[], [], false, 0, 0⟩, false, true⟩ : Conn).pingCtxSet = true ∧
    Conn.Ping ⟨⟨[], [], false, 0, 0⟩, false, true⟩ true .pong = .panics :=
  ⟨rfl, claim10_nil_ctx_panics _ .pong rfl⟩

end Websocket
